import Mathlib

/-!
Shallow embedding of the notarization subsystem of `macapptool`
(`notarize.go`, `sign.go`, `util.go`, `internal/plist/plist.go`).

Pure text scraping (the Go regular expressions in `notarize.go`) is embedded
as executable functions on `List Char`; stateful code (process invocation,
HTTP fetches, filesystem mutation) is embedded as functions from explicit
environment oracles to a trace of effects paired with a result.
-/

namespace Macapptool

/-! ## Character classes of the Go regular expressions

`statusRe = Status: ([\w ]+)`, `uuidRe = RequestUUID = ([0-9a-z\-]+)`,
`uuidAltRe = The upload ID is ([0-9a-z\-]+)`, `logFileURLRe = LogFileURL: (.*)`.
Go's `\w` is ASCII: letters, digits and underscore. -/

/-- Go regexp class `\w` (ASCII letters, digits, underscore). -/
def isGoWordChar (c : Char) : Bool :=
  c.isAlpha || c.isDigit || c == '_'

/-- Character class `[\w ]` of `statusRe`. -/
def isStatusChar (c : Char) : Bool :=
  isGoWordChar c || c == ' '

/-- Character class `[0-9a-z\-]` of `uuidRe` and `uuidAltRe`. -/
def isTicketChar (c : Char) : Bool :=
  c.isDigit || c.isLower || c == '-'

/-- Attempt to match `lit` followed by a nonempty greedy run of `p`-characters
at the head of `s`; on success return the captured run.  This is the behaviour
of a Go regexp `lit(p+)` anchored at the current position. -/
def capturePlusAt (lit : List Char) (p : Char → Bool) (s : List Char) : Option (List Char) :=
  if lit.isPrefixOf s then
    if ((s.drop lit.length).takeWhile p).isEmpty then none
    else some ((s.drop lit.length).takeWhile p)
  else none

/-- Leftmost match of the Go regexp `lit(p+)`: scan positions left to right,
capture the maximal run of `p`-characters after the first position where the
whole pattern matches.  Models `regexp.FindStringSubmatch` for the literal
prefix patterns of `notarize.go`. -/
def findCapturePlus (lit : List Char) (p : Char → Bool) : List Char → Option (List Char)
  | [] => none
  | c :: cs =>
    match capturePlusAt lit p (c :: cs) with
    | some cap => some cap
    | none => findCapturePlus lit p cs

/-- Attempt to match `lit(.*)` at the head of `s`: on success the capture is
everything up to the next newline (Go's `.` does not match `\n`), possibly
empty. -/
def captureStarAt (lit : List Char) (s : List Char) : Option (List Char) :=
  if lit.isPrefixOf s then
    some ((s.drop lit.length).takeWhile (fun c => c != '\n'))
  else none

/-- Leftmost match of the Go regexp `lit(.*)`. -/
def findCaptureStar (lit : List Char) : List Char → Option (List Char)
  | [] => none
  | c :: cs =>
    match captureStarAt lit (c :: cs) with
    | some cap => some cap
    | none => findCaptureStar lit cs

/-- `statusRe.FindStringSubmatch`: captured value of `Status: ([\w ]+)`. -/
def findStatusCapture (s : String) : Option String :=
  (findCapturePlus "Status: ".toList isStatusChar s.toList).map String.mk

/-- `uuidRe.FindStringSubmatch`: captured value of `RequestUUID = ([0-9a-z\-]+)`. -/
def findUUIDCapture (s : String) : Option String :=
  (findCapturePlus "RequestUUID = ".toList isTicketChar s.toList).map String.mk

/-- `uuidAltRe.FindStringSubmatch`: captured value of
`The upload ID is ([0-9a-z\-]+)`. -/
def findUUIDAltCapture (s : String) : Option String :=
  (findCapturePlus "The upload ID is ".toList isTicketChar s.toList).map String.mk

/-- `logFileURLRe.FindStringSubmatch`: captured value of `LogFileURL: (.*)`. -/
def findLogFileURLCapture (s : String) : Option String :=
  (findCaptureStar "LogFileURL: ".toList s.toList).map String.mk

/-! ## Path helpers (`path/filepath`, `strings`) -/

/-- Helper for `goExt`: given the reversed character list of a path, return the
reversed extension (including the dot), or `none` when a path separator is
reached before any dot. -/
def extCore : List Char → Option (List Char)
  | [] => none
  | c :: cs =>
    if c == '/' then none
    else if c == '.' then some [c]
    else
      match extCore cs with
      | some e => some (c :: e)
      | none => none

/-- Go `filepath.Ext`: the suffix beginning at the final dot in the final
slash-separated element of the path; empty if there is no dot. -/
def goExt (s : String) : String :=
  match extCore s.toList.reverse with
  | some e => String.mk e.reverse
  | none => ""

/-- Go `strings.Split(s, "/")` on character lists. -/
def splitSlash : List Char → List (List Char)
  | [] => [[]]
  | c :: cs =>
    if c == '/' then [] :: splitSlash cs
    else
      match splitSlash cs with
      | h :: t => (c :: h) :: t
      | [] => [[c]]

/-- ASCII lower-casing of a string (Go `strings.ToLower` on the ASCII strings
this program compares). -/
def lowerString (s : String) : String :=
  String.mk (s.toList.map Char.toLower)

/-- Go `filepath.Base` for the slash-free and single-slash paths built by this
program: the last slash-separated segment. -/
def baseName (s : String) : String :=
  match (splitSlash s.toList).getLast? with
  | some l => String.mk l
  | none => s

/-- Go `filepath.Dir` for the paths built by this program: everything before
the final slash, or `.` when there is no slash. -/
def dirName (s : String) : String :=
  match (splitSlash s.toList).dropLast with
  | [] => "."
  | parts => String.intercalate "/" (parts.map String.mk)

/-- Go `filepath.Join(a, b)` for a nonempty directory `a` and a bare name `b`. -/
def pathJoin (a b : String) : String :=
  a ++ "/" ++ b

/-- Drop `n` characters from the right of a string
(Go `s[:len(s)-n]` on ASCII strings). -/
def dropRightStr (s : String) (n : Nat) : String :=
  String.mk (s.toList.take (s.toList.length - n))

/-! ## Property list model (`internal/plist/plist.go`)

The plist decoder itself is an external collaborator; a decoded property list
is a key/value mapping.  `stringKey` is translated from the source. -/

/-- A decoded property-list value: a string, or a value of any other type. -/
inductive PValue where
  | str (s : String)
  | nonString
  deriving DecidableEq, Repr

/-- Error type of `PList.stringKey` (`ErrKeyNotFound` / `ErrInvalidType`). -/
inductive PlistErr where
  | keyNotFound (k : String)
  | invalidType (k : String)
  deriving DecidableEq, Repr

/-- A decoded property list: the key/value mapping produced by the decoder. -/
structure PList where
  data : List (String × PValue)
  deriving DecidableEq, Repr

/-- `(*PList).stringKey`: look up `key`; missing keys and non-string values
are distinct errors. -/
def PList.stringKey (pl : PList) (key : String) : Except PlistErr String :=
  match pl.data.find? (fun kv => kv.1 == key) with
  | none => .error (.keyNotFound key)
  | some (_, .str s) => .ok s
  | some (_, .nonString) => .error (.invalidType key)

/-- `(*PList).BundleIdentifier`: `stringKey(CFBundleIdentifier)`. -/
def PList.bundleIdentifier (pl : PList) : Except PlistErr String :=
  pl.stringKey "CFBundleIdentifier"

/-! ## Bundle identifier extraction (`findPrimaryBundleID`) -/

/-- A zip archive entry as seen by the extractor: its path inside the archive,
its mode bits, and the result of decoding its content as a property list
(`none` models a decode failure). -/
structure ZipEntry where
  name : String
  mode : Nat
  plist : Option PList
  deriving DecidableEq, Repr

/-- Error type of the embedded notarization pipeline. -/
inductive NErr where
  | zipOpenFailed
  | badPayloadExtension (ext : String)
  | plistDecodeFailed
  | plistKeyError (e : PlistErr)
  | couldNotFindInfoPlist
  | procStartFailed
  | cantFindTicket
  | infoQueryFailed
  | unexpectedFormat
  | unknownStatus (s : String)
  | notarizationFailed
  | tmpDirFailed
  | unzipFailed
  | noAppDir
  | stapleFailed
  | verifyFailed
  | zipCmdFailed
  | renameFailed
  | missingUsername
  | passwordReadFailed
  | unsupportedFormat (ext : String)
  deriving DecidableEq, Repr

/-- Result of a pipeline step: success value or a notarization error. -/
inductive NRes (α : Type) where
  | ok (a : α)
  | err (e : NErr)
  deriving DecidableEq, Repr

/-- The entry pattern of `findPrimaryBundleID`: exactly three slash-separated
segments, the first with extension `.app`, the second literally `Contents`,
the third literally `Info.plist`. -/
def entryMatches (name : String) : Bool :=
  match splitSlash name.toList with
  | [a, b, c] =>
    goExt (String.mk a) == ".app" && String.mk b == "Contents" && String.mk c == "Info.plist"
  | _ => false

/-- The scanning loop of `findPrimaryBundleID`: `count` entries seen so far and
the `last` entry name, as in the source.  On the first matching entry the
entry content is decoded and its bundle identifier returned; at end of archive
the single-file fallback or the `could not find Info.plist` error applies. -/
def findPrimaryBundleIDLoop : List ZipEntry → Nat → String → NRes String
  | [], count, last =>
    if count == 1 && !(last.toList.contains '/') then
      .ok ("com.example." ++ last)
    else
      .err .couldNotFindInfoPlist
  | e :: rest, count, _last =>
    if entryMatches e.name then
      match e.plist with
      | none => .err .plistDecodeFailed
      | some pl =>
        match pl.bundleIdentifier with
        | .error pe => .err (.plistKeyError pe)
        | .ok s => .ok s
    else
      findPrimaryBundleIDLoop rest (count + 1) e.name

/-- `findPrimaryBundleID`: dispatch on the payload extension (only `.zip` is
readable), open the archive (`zipOpen` is the result of `zip.OpenReader`), and
scan its entries in native order. -/
def findPrimaryBundleID (payload : String) (zipOpen : Option (List ZipEntry)) : NRes String :=
  if lowerString (goExt payload) == ".zip" then
    match zipOpen with
    | none => .err .zipOpenFailed
    | some entries => findPrimaryBundleIDLoop entries 0 ""
  else
    .err (.badPayloadExtension (goExt payload))

/-! ## Effects and process invocation

External behaviour is recorded as a trace of effects; the outcome of each
external interaction is supplied by explicit environment oracles. -/

/-- An observable external effect of the pipeline. -/
inductive Effect where
  | execCmd (dir : String) (args : List String)
  | httpGet (url : String)
  | sleepSeconds (n : Nat)
  | printOut (s : String)
  | printErr (s : String)
  | openZip (path : String)
  | createTempDir
  | removeDir (path : String)
  | rename (src dst : String)
  deriving DecidableEq, Repr

/-- Outcome of running an external command (`exec.Cmd.Run`): clean exit,
non-zero exit (`exec.ExitError`), or failure to start the process at all. -/
inductive ProcResult where
  | ok
  | exitError
  | startError
  deriving DecidableEq, Repr

/-- Global configuration flags (`-v` verbosity and `-n` dry run). -/
structure Cfg where
  verbose : Nat
  dryRun : Bool
  deriving DecidableEq, Repr

/-- The redaction loop of `commandDebugString`, with the `expectPassword`
flag threaded exactly as in the source: when set, the next argument is
replaced by `strings.Repeat("Xx", 8)+"X"` and the flag cleared.  Nothing in
the source ever sets the flag. -/
def redactLoop : List String → Bool → List String
  | [], _ => []
  | v :: rest, expectPassword =>
    if expectPassword then
      "XxXxXxXxXxXxXxXxX" :: redactLoop rest false
    else
      v :: redactLoop rest expectPassword

/-- `commandDebugString`: the command line echoed for diagnostics. -/
def commandDebugString (args : List String) : String :=
  String.intercalate " " (redactLoop args false)

/-- The effects of `writeCommandOutputOnDir`: echo the debug command string,
then invoke the external process.  The function reads no dry-run flag. -/
def writeCommandOutputOnDir (dir : String) (args : List String) : List Effect :=
  (if dir != "" then
    [Effect.printOut ("(" ++ dir ++ ") @" ++ commandDebugString args)]
  else
    [Effect.printOut ("@" ++ commandDebugString args)]) ++ [Effect.execCmd dir args]

/-! ## Notarization submitter (`submitForNotarization`) -/

/-- Argument list of the `altool --notarize-app` submission command. -/
def notarizeAppArgs (cfg : Cfg) (bundleID user pass payload : String) : List String :=
  ["xcrun", "altool", "--notarize-app",
   "--primary-bundle-id", bundleID,
   "--username", user,
   "--password", pass,
   "--file", payload] ++ (if cfg.verbose > 0 then ["--verbose"] else [])

/-- `submitForNotarization`: extract the primary bundle identifier, invoke the
submission command (`proc`/`output` are the oracle outcome of that command),
and scan the captured output for a ticket with `uuidRe` then `uuidAltRe`.
A non-zero exit (`ProcResult.exitError`) does not abort the scan; only a
process that could not start does. -/
def submitForNotarization (cfg : Cfg) (payload : String) (zipOpen : Option (List ZipEntry))
    (user pass : String) (proc : ProcResult) (output : String) :
    List Effect × NRes String :=
  let tr0 : List Effect :=
    if lowerString (goExt payload) == ".zip" then [Effect.openZip payload] else []
  match findPrimaryBundleID payload zipOpen with
  | .err e => (tr0, .err e)
  | .ok bundleID =>
    let args := notarizeAppArgs cfg bundleID user pass payload
    let tr := tr0 ++ [Effect.printOut ("submitting " ++ baseName payload ++ " for notarization...")]
      ++ writeCommandOutputOnDir "" args
    match proc with
    | .startError => (tr, .err .procStartFailed)
    | _ =>
      match findUUIDCapture output with
      | some t => (tr, .ok t)
      | none =>
        match findUUIDAltCapture output with
        | some t => (tr, .ok t)
        | none => (tr, .err .cantFindTicket)

/-! ## Notarization poller (`notarizationInfo`, `waitForNotarization`) -/

/-- Argument list of the `altool --notarization-info` status query. -/
def notarizationInfoArgs (cfg : Cfg) (uuid user pass : String) : List String :=
  ["xcrun", "altool",
   "--notarization-info", uuid,
   "--username", user,
   "--password", pass] ++ (if cfg.verbose > 0 then ["--verbose"] else [])

/-- The effects computed for one `invalid` response: locate `LogFileURL:`,
fetch it (the `logFetch` oracle gives the body, or `none` on fetch failure)
and stream the body to standard error; a missing URL or a failed fetch is
only logged. -/
def invalidLogEffects (logFetch : String → Option String) (info : String) : List Effect :=
  match findLogFileURLCapture info with
  | some url =>
    Effect.httpGet url ::
      (match logFetch url with
       | none => [Effect.printErr "error reading log"]
       | some body => [Effect.printErr body, Effect.printErr "\n"])
  | none => [Effect.printErr "could not find log URL\n"]

/-- `waitForNotarization`: poll `altool --notarization-info` for the ticket
until a terminal status.  `responses` holds the environment's answer to each
successive query (`none` models a failing query command); an exhausted list
models an environment with no further answers, surfacing the query failure. -/
def waitForNotarization (cfg : Cfg) (uuid user pass : String)
    (logFetch : String → Option String) :
    List (Option String) → List Effect × NRes Unit
  | [] => ([], .err .infoQueryFailed)
  | r :: rest =>
    let qtr := writeCommandOutputOnDir "" (notarizationInfoArgs cfg uuid user pass)
    match r with
    | none => (qtr, .err .infoQueryFailed)
    | some info =>
      match findStatusCapture info with
      | none => (qtr, .err .unexpectedFormat)
      | some st =>
        if st == "success" then
          (qtr ++ [Effect.printOut "notarization completed\n"], .ok ())
        else if st == "in progress" then
          let next := waitForNotarization cfg uuid user pass logFetch rest
          (qtr ++ [Effect.printOut "notarization in progress, will check again in 10s...\n",
                   Effect.sleepSeconds 10] ++ next.1, next.2)
        else if st == "invalid" then
          (qtr ++ invalidLogEffects logFetch info, .err .notarizationFailed)
        else
          (qtr, .err (.unknownStatus st))

/-! ## Signature verification (`util.go`) and signing (`sign.go`) -/

/-- A directory entry as seen by `ioutil.ReadDir` (`unzipPayload` re-stats a
candidate; the stat is modelled as agreeing with the listing). -/
structure DirEntry where
  name : String
  isDir : Bool
  mode : Nat
  deriving DecidableEq, Repr

/-- `isExecutable`: `info.Mode()&0111 != 0`. -/
def isExecutable (mode : Nat) : Bool :=
  mode.land 73 != 0

/-- Argument list (including the program name, as in `cmd.Args`) of the
`spctl` assessment performed by `verifySignature`. -/
def verifySignatureArgs (cfg : Cfg) (p : String) : List String :=
  "spctl" ::
    ((if cfg.verbose > 0 then ["--verbose=10"] else []) ++
     ["--assess", "--ignore-cache", "--no-cache"] ++
     (if lowerString (goExt p) == ".app" then ["--type", "execute"]
      else ["--type", "open", "--context", "context:primary-signature"]) ++
     [p])

/-- `verifySignature`: in dry-run mode print the command line and succeed;
otherwise run `spctl` (its outcome supplied by the `procOk` oracle). -/
def verifySignature (cfg : Cfg) (procOk : Bool) (p : String) : List Effect × NRes Unit :=
  let args := verifySignatureArgs cfg p
  if cfg.dryRun then
    ([Effect.printOut (String.intercalate " " args)], .ok ())
  else
    ([Effect.execCmd "" args], if procOk then .ok () else .err .verifyFailed)

/-- Argument list (including the program name) of the `codesign` invocation
performed by `signEntry`. -/
def signEntryArgs (cfg : Cfg) (entitlements identity p : String) : List String :=
  "codesign" ::
    ((if cfg.verbose > 0 then ["--verbose"] else []) ++
     ["--force", "--options=runtime", "--timestamp"] ++
     (if entitlements != "" then ["--entitlements", entitlements] else []) ++
     ["--sign", identity, p])

/-- `signEntry`: in dry-run mode print the command line and succeed; otherwise
run `codesign` (its outcome supplied by the `procOk` oracle). -/
def signEntry (cfg : Cfg) (procOk : Bool) (entitlements identity p : String) :
    List Effect × NRes Unit :=
  let args := signEntryArgs cfg entitlements identity p
  if cfg.dryRun then
    ([Effect.printOut (String.intercalate " " args)], .ok ())
  else
    ([Effect.execCmd "" args], if procOk then .ok () else .err .verifyFailed)

/-! ## Stapling (`stapleAndVerify`, `unzipPayload`, `makeAppZip`) -/

/-- Environment oracles of the staple/verify step. -/
structure StapleWorld where
  tmpDir : Option String
  unzipOk : Bool
  dirEntries : List DirEntry
  stapleOk : Bool
  verifyOk : Bool
  zipOk : Bool
  renameOk : Bool

/-- The directory scan of `unzipPayload`: the first entry whose name has
extension `.app` and which stats as a directory. -/
def findAppDir : List DirEntry → Option String
  | [] => none
  | e :: rest =>
    if goExt e.name == ".app" && e.isDir then some e.name else findAppDir rest

/-- Result of `unzipPayload` after the `unzip` command: scan the extracted
entries for a `.app` directory (stapling applies), falling back to a single
extension-free executable file (stapling does not apply). -/
def unzipPayloadRes (w : StapleWorld) (outputDir : String) : NRes (String × Bool) :=
  if !w.unzipOk then .err .unzipFailed
  else
    match findAppDir w.dirEntries with
    | some name => .ok (pathJoin outputDir name, true)
    | none =>
      match w.dirEntries with
      | [e] =>
        if goExt e.name == "" && isExecutable e.mode then
          .ok (pathJoin outputDir e.name, false)
        else .err .noAppDir
      | _ => .err .noAppDir

/-- `unzipPayload`: run `unzip` inside `outputDir`, then scan the extracted
entries. -/
def unzipPayload (w : StapleWorld) (payload outputDir : String) :
    List Effect × NRes (String × Bool) :=
  (writeCommandOutputOnDir outputDir ["unzip", payload], unzipPayloadRes w outputDir)

/-- `makeAppZip`: compress `appDir` into `<name>.zip` beside it with the
platform `zip` archiver; return the produced zip path. -/
def makeAppZip (zipOk : Bool) (appDir : String) : List Effect × NRes String :=
  let basename := baseName appDir
  let ext := goExt basename
  let nonExt := dropRightStr basename ext.length
  let zipFile := nonExt ++ ".zip"
  let dir := dirName appDir
  let tr := Effect.printOut ("compressing " ++ pathJoin dir basename ++ " to " ++ pathJoin dir zipFile ++ "\n")
    :: writeCommandOutputOnDir dir ["zip", "-9", "-y", "-r", zipFile, basename]
  if zipOk then (tr, .ok (pathJoin dir zipFile)) else (tr, .err .zipCmdFailed)

/-- The body of `stapleAndVerify` after the temporary directory exists:
extract, staple when applicable, verify the signature, and when stapling
applied re-zip and rename the result over the original zip path. -/
def stapleBody (cfg : Cfg) (w : StapleWorld) (zipFile dir : String) :
    List Effect × NRes Unit :=
  let u := unzipPayload w zipFile dir
  match u.2 with
  | .err e => (u.1, .err e)
  | .ok pc =>
    let p := pc.1
    let canStaple := pc.2
    let trS := if canStaple then writeCommandOutputOnDir "" ["xcrun", "stapler", "staple", p] else []
    if canStaple && !w.stapleOk then (u.1 ++ trS, .err .stapleFailed)
    else
      let v := verifySignature cfg w.verifyOk p
      match v.2 with
      | .err e => (u.1 ++ trS ++ v.1, .err e)
      | .ok _ =>
        if canStaple then
          let z := makeAppZip w.zipOk p
          match z.2 with
          | .err e => (u.1 ++ trS ++ v.1 ++ z.1, .err e)
          | .ok newZip =>
            (u.1 ++ trS ++ v.1 ++ z.1 ++ [Effect.rename newZip zipFile],
             if w.renameOk then .ok () else .err .renameFailed)
        else (u.1 ++ trS ++ v.1, .ok ())

/-- `stapleAndVerify`: create a scoped temporary directory (removed on every
exit path, as by `defer os.RemoveAll`), then run the staple/verify body. -/
def stapleAndVerify (cfg : Cfg) (w : StapleWorld) (zipFile : String) :
    List Effect × NRes Unit :=
  match w.tmpDir with
  | none => ([], .err .tmpDirFailed)
  | some dir =>
    let b := stapleBody cfg w zipFile dir
    (Effect.createTempDir :: b.1 ++ [Effect.removeDir dir], b.2)

/-! ## Orchestrator (`notarizePayload`, `notarizeFile`) -/

/-- A notarization request (`notarizationRequest`). -/
structure NotarizationRequest where
  appPath : String
  username : String
  password : String
  uuid : String
  deriving DecidableEq, Repr

/-- Environment oracles of a full pipeline run. -/
structure World where
  zipOpen : Option (List ZipEntry)
  submitProc : ProcResult
  submitOutput : String
  pollResponses : List (Option String)
  logFetch : String → Option String
  staple : StapleWorld
  promptPassword : Option String
  makeZipOk : Bool

/-- The tail of `notarizePayload` once a ticket identifier is in hand: poll
the notarization status for that ticket, then staple and verify the payload. -/
def pollAndStaple (cfg : Cfg) (w : World) (req : NotarizationRequest) (uuid : String) :
    List Effect × NRes Unit :=
  let tr0 := [Effect.printOut ("waiting for notarization of " ++ uuid ++ "\n")]
  let pw := waitForNotarization cfg uuid req.username req.password w.logFetch w.pollResponses
  match pw.2 with
  | .err e => (tr0 ++ pw.1, .err e)
  | .ok _ =>
    let sv := stapleAndVerify cfg w.staple req.appPath
    (tr0 ++ pw.1 ++ sv.1, sv.2)

/-- `notarizePayload`: submit the payload unless the caller already supplied a
ticket identifier, then poll and staple. -/
def notarizePayload (cfg : Cfg) (w : World) (req : NotarizationRequest) :
    List Effect × NRes Unit :=
  if req.uuid == "" then
    let sub := submitForNotarization cfg req.appPath w.zipOpen req.username req.password
      w.submitProc w.submitOutput
    match sub.2 with
    | .err e => (sub.1, .err e)
    | .ok t =>
      let tail := pollAndStaple cfg w req t
      (sub.1 ++ tail.1, tail.2)
  else
    pollAndStaple cfg w req req.uuid

/-- `notarizeFile`: check credentials (prompting for a missing password), then
dispatch on the artifact extension: `.zip` is notarized directly, `.app` or no
extension is first compressed via `makeAppZip`, anything else is rejected. -/
def notarizeFile (cfg : Cfg) (w : World) (req : NotarizationRequest) :
    List Effect × NRes Unit :=
  if req.username == "" then ([], .err .missingUsername)
  else
    match (if req.password == "" then w.promptPassword else some req.password) with
    | none => ([], .err .passwordReadFailed)
    | some pass =>
      let req := { req with password := pass }
      let ext := goExt req.appPath
      if ext == ".zip" then notarizePayload cfg w req
      else if ext == ".app" || ext == "" then
        let z := makeAppZip w.makeZipOk req.appPath
        match z.2 with
        | .err e => (z.1, .err e)
        | .ok appZip =>
          let tail := notarizePayload cfg w { req with appPath := appZip }
          (z.1 ++ tail.1, tail.2)
      else ([], .err (.unsupportedFormat ext))

/-! ## Trace observations -/

/-- Whether an effect belongs to the submission step: opening the payload
archive for bundle-identifier extraction, or invoking the
`xcrun altool --notarize-app` submission command. -/
def Effect.isSubmitStep : Effect → Bool
  | .openZip _ => true
  | .execCmd _ args => args.take 3 == ["xcrun", "altool", "--notarize-app"]
  | _ => false

/-- Whether a trace invokes any external process. -/
def hasExec (tr : List Effect) : Bool :=
  tr.any fun e =>
    match e with
    | .execCmd _ _ => true
    | _ => false

/-- Number of external process invocations in a trace. -/
def countExecs (tr : List Effect) : Nat :=
  (tr.filter fun e =>
    match e with
    | .execCmd _ _ => true
    | _ => false).length

/-- Whether a trace contains a sleep. -/
def hasSleep (tr : List Effect) : Bool :=
  tr.any fun e =>
    match e with
    | .sleepSeconds _ => true
    | _ => false

/-- Whether a trace renames a file over another. -/
def hasRename (tr : List Effect) : Bool :=
  tr.any fun e =>
    match e with
    | .rename _ _ => true
    | _ => false

/-- Character class asserted by the spec for ticket tokens: lowercase
hexadecimal digits and hyphens.  (Stated from the spec's words, for
comparison with the source pattern class `isTicketChar`.) -/
def isLowerHexOrHyphen (c : Char) : Bool :=
  c.isDigit || (c.isLower && c.toNat ≤ 102) || c == '-'

/-- The fallback condition actually tested by `findPrimaryBundleID`: the
archive holds exactly one entry and its name contains no path separator. -/
def singleSeparatorFreeEntry : List ZipEntry → Bool
  | [e] => !(e.name.toList.contains '/')
  | _ => false

/-- The name of the last entry of a list, or `l` for the empty list; tracks
the `last` variable of the scanning loop. -/
def lastNameFrom (l : String) : List ZipEntry → String
  | [] => l
  | e :: rest => lastNameFrom e.name rest

/-! ## Helper lemmas -/

theorem redactLoop_false (l : List String) : redactLoop l false = l := by
  induction l with
  | nil => rfl
  | cons a t ih => simp [redactLoop, ih]

theorem commandDebugString_id (args : List String) :
    commandDebugString args = String.intercalate " " args := by
  simp [commandDebugString, redactLoop_false]

theorem mem_writeCommandOutputOnDir {e : Effect} {d : String} {args : List String}
    (h : e ∈ writeCommandOutputOnDir d args) :
    (∃ s, e = Effect.printOut s) ∨ e = Effect.execCmd d args := by
  unfold writeCommandOutputOnDir at h
  split at h <;> simp only [List.singleton_append, List.mem_cons, List.mem_singleton,
    List.not_mem_nil, or_false] at h <;> rcases h with h | h
  · exact Or.inl ⟨_, h⟩
  · exact Or.inr h
  · exact Or.inl ⟨_, h⟩
  · exact Or.inr h

theorem takeWhile_all (p : Char → Bool) (l : List Char) : (l.takeWhile p).all p = true := by
  induction l with
  | nil => rfl
  | cons c cs ih => cases hp : p c <;> simp [List.takeWhile, hp, ih]

theorem findCapturePlus_all {lit : List Char} {p : Char → Bool} :
    ∀ {s cap : List Char}, findCapturePlus lit p s = some cap → cap.all p = true := by
  intro s
  induction s with
  | nil => intro cap h; simp [findCapturePlus] at h
  | cons c cs ih =>
    intro cap h
    unfold findCapturePlus at h
    cases hc : capturePlusAt lit p (c :: cs) with
    | some cap2 =>
      rw [hc] at h
      cases h
      unfold capturePlusAt at hc
      split at hc
      · split at hc
        · exact absurd hc (by simp)
        · cases hc
          exact takeWhile_all p _
      · exact absurd hc (by simp)
    | none =>
      rw [hc] at h
      exact ih h

theorem findUUIDCapture_chars {s t : String} (h : findUUIDCapture s = some t) :
    t.toList.all isTicketChar = true := by
  unfold findUUIDCapture at h
  rcases Option.map_eq_some'.mp h with ⟨cap, hc, ht⟩
  subst ht
  exact findCapturePlus_all hc

theorem findUUIDAltCapture_chars {s t : String} (h : findUUIDAltCapture s = some t) :
    t.toList.all isTicketChar = true := by
  unfold findUUIDAltCapture at h
  rcases Option.map_eq_some'.mp h with ⟨cap, hc, ht⟩
  subst ht
  exact findCapturePlus_all hc

theorem findPrimaryBundleIDLoop_first_match (e : ZipEntry) (post : List ZipEntry)
    (he : entryMatches e.name = true) :
    ∀ (pre : List ZipEntry) (c : Nat) (l : String),
      (∀ x ∈ pre, entryMatches x.name = false) →
      findPrimaryBundleIDLoop (pre ++ e :: post) c l =
        match e.plist with
        | none => .err .plistDecodeFailed
        | some pl =>
          match pl.bundleIdentifier with
          | .error pe => .err (.plistKeyError pe)
          | .ok s => .ok s := by
  intro pre
  induction pre with
  | nil =>
    intro c l _
    simp [findPrimaryBundleIDLoop, he]
  | cons x rest ih =>
    intro c l hall
    have hx : entryMatches x.name = false := hall x (List.mem_cons_self x rest)
    simp only [List.cons_append, findPrimaryBundleIDLoop, hx, Bool.false_eq_true, if_false]
    exact ih (c + 1) x.name fun y hy => hall y (List.mem_cons_of_mem x hy)

theorem findPrimaryBundleIDLoop_no_match :
    ∀ (entries : List ZipEntry) (c : Nat) (l : String),
      (∀ x ∈ entries, entryMatches x.name = false) →
      findPrimaryBundleIDLoop entries c l =
        if (c + entries.length == 1) && !((lastNameFrom l entries).toList.contains '/') then
          .ok ("com.example." ++ lastNameFrom l entries)
        else
          .err .couldNotFindInfoPlist := by
  intro entries
  induction entries with
  | nil =>
    intro c l _
    simp [findPrimaryBundleIDLoop, lastNameFrom]
  | cons x rest ih =>
    intro c l hall
    have hx : entryMatches x.name = false := hall x (List.mem_cons_self x rest)
    simp only [findPrimaryBundleIDLoop, hx, Bool.false_eq_true, if_false]
    have hlen : c + 1 + rest.length = c + (x :: rest).length := by
      simp [List.length_cons]
      omega
    rw [ih (c + 1) x.name fun y hy => hall y (List.mem_cons_of_mem x hy), hlen]
    rfl

/-- C2: for every zip archive containing an entry with exactly three path
segments `<name>.app/Contents/Info.plist`, bundle-identifier extraction
returns the `CFBundleIdentifier` string of the first such entry in the
archive's native order, stopping at that first match (everything after the
first match is irrelevant). -/
theorem C2_first_info_plist_bundle_id (payload : String) (pre post : List ZipEntry)
    (e : ZipEntry) (pl : PList) (s : String)
    (hz : lowerString (goExt payload) = ".zip")
    (hpre : ∀ x ∈ pre, entryMatches x.name = false)
    (he : entryMatches e.name = true)
    (hpl : e.plist = some pl)
    (hid : pl.bundleIdentifier = .ok s) :
    findPrimaryBundleID payload (some (pre ++ e :: post)) = .ok s := by
  simp only [findPrimaryBundleID, hz, beq_self_eq_true, if_true]
  rw [findPrimaryBundleIDLoop_first_match e post he pre 0 "" hpre, hpl]
  simp [hid]

/-- Witness for C2 at a concrete archive: a non-matching entry, the first
matching `Info.plist` and a later second bundle are laid out explicitly. -/
theorem C2_first_info_plist_bundle_id_witness :
    findPrimaryBundleID "MyApp.zip"
      (some ([⟨"README", 420, none⟩] ++
        ⟨"A.app/Contents/Info.plist", 420, some ⟨[("CFBundleIdentifier", PValue.str "com.example.a")]⟩⟩ ::
        [⟨"B.app/Contents/Info.plist", 420, some ⟨[("CFBundleIdentifier", PValue.str "com.example.b")]⟩⟩])) =
      .ok "com.example.a" :=
  C2_first_info_plist_bundle_id "MyApp.zip" [⟨"README", 420, none⟩]
    [⟨"B.app/Contents/Info.plist", 420, some ⟨[("CFBundleIdentifier", PValue.str "com.example.b")]⟩⟩]
    ⟨"A.app/Contents/Info.plist", 420, some ⟨[("CFBundleIdentifier", PValue.str "com.example.a")]⟩⟩
    ⟨[("CFBundleIdentifier", PValue.str "com.example.a")]⟩ "com.example.a"
    (by decide) (by decide) (by decide) rfl rfl

/-- C4 counterexample: the single-entry fallback of `findPrimaryBundleID`
never consults executability — a lone non-executable entry (mode bits 0)
still receives the synthesized identifier, where the claim requires a
could-not-find-Info.plist failure. -/
theorem C4_counterexample :
    findPrimaryBundleID "tool.zip" (some [⟨"tool", 0, none⟩]) = .ok "com.example.tool" ∧
    isExecutable 0 = false := by
  exact ⟨by decide, by decide⟩

/-- C4 (amended): for a zip archive with no qualifying Info.plist entry, if
the archive contains exactly one entry whose name has no path separator, the
synthesized identifier `com.example.<filename>` is returned (executability is
not consulted); otherwise extraction fails with the could-not-find-Info.plist
error. -/
theorem C4_single_file_fallback (payload : String) (entries : List ZipEntry)
    (hz : lowerString (goExt payload) = ".zip")
    (hnone : ∀ x ∈ entries, entryMatches x.name = false) :
    (∀ e, entries = [e] → e.name.toList.contains '/' = false →
       findPrimaryBundleID payload (some entries) = .ok ("com.example." ++ e.name)) ∧
    (singleSeparatorFreeEntry entries = false →
       findPrimaryBundleID payload (some entries) = .err .couldNotFindInfoPlist) := by
  constructor
  · rintro e rfl hsl
    have hloop := findPrimaryBundleIDLoop_no_match [e] 0 "" hnone
    have hsl2 : '/' ∉ e.name.data := by simpa using hsl
    simp only [findPrimaryBundleID, hz, beq_self_eq_true, if_true]
    rw [hloop]
    simp [lastNameFrom, hsl2]
  · intro hfb
    have hloop := findPrimaryBundleIDLoop_no_match entries 0 "" hnone
    simp only [findPrimaryBundleID, hz, beq_self_eq_true, if_true]
    rw [hloop]
    match entries, hfb with
    | [], _ => rfl
    | [e], hfb =>
      have hc : '/' ∈ e.name.data := by
        unfold singleSeparatorFreeEntry at hfb
        simpa using hfb
      simp [lastNameFrom, hc]
    | a :: b :: rest, _ => rfl

/-- Witness for C4 at concrete archives: the lone separator-free entry gets
the synthesized identifier; a two-entry archive and a single entry with a
separator both fail. -/
theorem C4_single_file_fallback_witness :
    findPrimaryBundleID "tool.zip" (some [⟨"mytool", 493, none⟩]) = .ok "com.example.mytool" ∧
    findPrimaryBundleID "tool.zip" (some [⟨"d/mytool", 493, none⟩]) = .err .couldNotFindInfoPlist := by
  constructor
  · exact (C4_single_file_fallback "tool.zip" [⟨"mytool", 493, none⟩] (by decide)
      (by decide)).1 ⟨"mytool", 493, none⟩ rfl (by decide)
  · exact (C4_single_file_fallback "tool.zip" [⟨"d/mytool", 493, none⟩] (by decide)
      (by decide)).2 (by decide)

/-- C6: the claim that every password-bearing argument is replaced by a
placeholder fails — `commandDebugString` never sets its redaction flag, so
the echoed command line is simply the arguments joined by spaces, password
included verbatim. -/
theorem C6_password_visible_in_debug_string :
    commandDebugString ["xcrun", "altool", "--password", "hunter2"] =
      "xcrun altool --password hunter2" ∧
    commandDebugString ["xcrun", "altool", "--password", "hunter2"] =
      "xcrun altool --password " ++ "hunter2" ∧
    ∀ args : List String, commandDebugString args = String.intercalate " " args := by
  exact ⟨by decide, by decide, commandDebugString_id⟩

/-- C5: dry-run is honored by the signing and verification helpers, but the
notarize pipeline never consults the flag — with dry-run set, stapling and
submission still invoke external processes. -/
theorem C5_dry_run_ignored_by_notarize_pipeline :
    hasExec (signEntry ⟨0, true⟩ true "" "Developer ID" "A.app").1 = false ∧
    hasExec (verifySignature ⟨0, true⟩ true "A.app").1 = false ∧
    hasExec (stapleAndVerify ⟨0, true⟩
      ⟨some "/tmp/nz", true, [⟨"A.app", true, 493⟩], true, true, true, true⟩ "A.zip").1 = true ∧
    hasExec (submitForNotarization ⟨0, true⟩ "a.zip"
      (some [⟨"A.app/Contents/Info.plist", 420, some ⟨[("CFBundleIdentifier", PValue.str "com.a")]⟩⟩])
      "u" "pw" .ok "RequestUUID = abc").1 = true := by
  exact ⟨by decide, by decide, by decide, by decide⟩

theorem submitForNotarization_snd (cfg : Cfg) (payload : String)
    (zipOpen : Option (List ZipEntry)) (user pass : String) (output : String)
    (bid : String) (hbid : findPrimaryBundleID payload zipOpen = .ok bid)
    (proc : ProcResult) (hproc : proc ≠ .startError) :
    (submitForNotarization cfg payload zipOpen user pass proc output).2 =
      (match findUUIDCapture output with
       | some t => NRes.ok t
       | none =>
         match findUUIDAltCapture output with
         | some t => NRes.ok t
         | none => NRes.err NErr.cantFindTicket) := by
  cases proc with
  | startError => exact absurd rfl hproc
  | ok =>
    simp only [submitForNotarization, hbid]
    cases hU : findUUIDCapture output with
    | some t => simp [hU]
    | none =>
      cases hA : findUUIDAltCapture output with
      | some t => simp [hU, hA]
      | none => simp [hU, hA]
  | exitError =>
    simp only [submitForNotarization, hbid]
    cases hU : findUUIDCapture output with
    | some t => simp [hU]
    | none =>
      cases hA : findUUIDAltCapture output with
      | some t => simp [hU, hA]
      | none => simp [hU, hA]

/-- C3 counterexample: the ticket pattern class is `[0-9a-z-]`, not lowercase
hexadecimal — a submission response carrying `RequestUUID = zz` yields the
ticket `zz`, whose characters are not lowercase hex digits or hyphens as the
claim asserts. -/
theorem C3_counterexample :
    (submitForNotarization ⟨0, false⟩ "a.zip"
      (some [⟨"A.app/Contents/Info.plist", 420, some ⟨[("CFBundleIdentifier", PValue.str "com.a")]⟩⟩])
      "u" "pw" .ok "RequestUUID = zz").2 = .ok "zz" ∧
    "zz".toList.all isLowerHexOrHyphen = false := by
  exact ⟨by decide, by decide⟩

/-- C3 (amended): submission returns the token captured by
`RequestUUID = ([0-9a-z-]+)` when it matches, otherwise the token captured by
`The upload ID is ([0-9a-z-]+)` when that matches, otherwise fails with the
cannot-find-ticket error; a non-zero exit of the submission command does not
by itself cause failure; ticket token characters are restricted to digits,
lowercase letters and hyphens. -/
theorem C3_ticket_scanning (cfg : Cfg) (payload : String)
    (zipOpen : Option (List ZipEntry)) (user pass : String) (output : String)
    (bid : String) (hbid : findPrimaryBundleID payload zipOpen = .ok bid)
    (proc : ProcResult) (hproc : proc ≠ .startError) :
    (∀ t, findUUIDCapture output = some t →
       (submitForNotarization cfg payload zipOpen user pass proc output).2 = .ok t) ∧
    (findUUIDCapture output = none → ∀ t, findUUIDAltCapture output = some t →
       (submitForNotarization cfg payload zipOpen user pass proc output).2 = .ok t) ∧
    (findUUIDCapture output = none → findUUIDAltCapture output = none →
       (submitForNotarization cfg payload zipOpen user pass proc output).2 =
         .err .cantFindTicket) ∧
    ((submitForNotarization cfg payload zipOpen user pass .exitError output).2 =
       (submitForNotarization cfg payload zipOpen user pass .ok output).2) ∧
    (∀ t, (submitForNotarization cfg payload zipOpen user pass proc output).2 = .ok t →
       t.toList.all isTicketChar = true) := by
  have hsnd := submitForNotarization_snd cfg payload zipOpen user pass output bid hbid
  refine ⟨?_, ?_, ?_, ?_, ?_⟩
  · intro t ht
    rw [hsnd proc hproc, ht]
  · intro hU t hA
    rw [hsnd proc hproc, hU, hA]
  · intro hU hA
    rw [hsnd proc hproc, hU, hA]
  · rw [hsnd .exitError (by decide), hsnd .ok (by decide)]
  · intro t ht
    rw [hsnd proc hproc] at ht
    cases hU : findUUIDCapture output with
    | some u =>
      rw [hU] at ht
      cases ht
      exact findUUIDCapture_chars hU
    | none =>
      rw [hU] at ht
      cases hA : findUUIDAltCapture output with
      | some u =>
        rw [hA] at ht
        cases ht
        exact findUUIDAltCapture_chars hA
      | none =>
        rw [hA] at ht
        cases ht

/-- Witness for C3 at concrete submission outputs: the primary pattern, the
alternate pattern on a resubmission response despite a non-zero exit, and a
response with neither pattern. -/
theorem C3_ticket_scanning_witness :
    (submitForNotarization ⟨0, false⟩ "a.zip"
      (some [⟨"A.app/Contents/Info.plist", 420, some ⟨[("CFBundleIdentifier", PValue.str "com.a")]⟩⟩])
      "u" "pw" .ok "RequestUUID = abc-123\n").2 = .ok "abc-123" ∧
    (submitForNotarization ⟨0, false⟩ "a.zip"
      (some [⟨"A.app/Contents/Info.plist", 420, some ⟨[("CFBundleIdentifier", PValue.str "com.a")]⟩⟩])
      "u" "pw" .exitError "ERROR: already uploaded. The upload ID is def-456\n").2 = .ok "def-456" ∧
    (submitForNotarization ⟨0, false⟩ "a.zip"
      (some [⟨"A.app/Contents/Info.plist", 420, some ⟨[("CFBundleIdentifier", PValue.str "com.a")]⟩⟩])
      "u" "pw" .ok "nothing useful").2 = .err .cantFindTicket := by
  refine ⟨?_, ?_, ?_⟩
  · exact (C3_ticket_scanning ⟨0, false⟩ "a.zip"
      (some [⟨"A.app/Contents/Info.plist", 420, some ⟨[("CFBundleIdentifier", PValue.str "com.a")]⟩⟩])
      "u" "pw" "RequestUUID = abc-123\n" "com.a" (by decide) .ok (by decide)).1
      "abc-123" (by decide)
  · exact (C3_ticket_scanning ⟨0, false⟩ "a.zip"
      (some [⟨"A.app/Contents/Info.plist", 420, some ⟨[("CFBundleIdentifier", PValue.str "com.a")]⟩⟩])
      "u" "pw" "ERROR: already uploaded. The upload ID is def-456\n" "com.a" (by decide)
      .exitError (by decide)).2.1 (by decide) "def-456" (by decide)
  · exact (C3_ticket_scanning ⟨0, false⟩ "a.zip"
      (some [⟨"A.app/Contents/Info.plist", 420, some ⟨[("CFBundleIdentifier", PValue.str "com.a")]⟩⟩])
      "u" "pw" "nothing useful" "com.a" (by decide) .ok (by decide)).2.2.1
      (by decide) (by decide)

theorem countExecs_append (a b : List Effect) :
    countExecs (a ++ b) = countExecs a + countExecs b := by
  simp [countExecs, List.filter_append]

theorem countExecs_writeCommandOutputOnDir (d : String) (args : List String) :
    countExecs (writeCommandOutputOnDir d args) = 1 := by
  unfold writeCommandOutputOnDir
  split <;> rfl

theorem waitFor_step_success (cfg : Cfg) (uuid user pass : String)
    (lf : String → Option String) (info : String) (rest : List (Option String))
    (h : findStatusCapture info = some "success") :
    waitForNotarization cfg uuid user pass lf (some info :: rest) =
      (writeCommandOutputOnDir "" (notarizationInfoArgs cfg uuid user pass) ++
        [Effect.printOut "notarization completed\n"], .ok ()) := by
  simp [waitForNotarization, h]

theorem waitFor_step_inprogress (cfg : Cfg) (uuid user pass : String)
    (lf : String → Option String) (info : String) (rest : List (Option String))
    (h : findStatusCapture info = some "in progress") :
    waitForNotarization cfg uuid user pass lf (some info :: rest) =
      (writeCommandOutputOnDir "" (notarizationInfoArgs cfg uuid user pass) ++
        [Effect.printOut "notarization in progress, will check again in 10s...\n",
         Effect.sleepSeconds 10] ++ (waitForNotarization cfg uuid user pass lf rest).1,
       (waitForNotarization cfg uuid user pass lf rest).2) := by
  simp [waitForNotarization, h]

theorem waitFor_step_invalid (cfg : Cfg) (uuid user pass : String)
    (lf : String → Option String) (info : String) (rest : List (Option String))
    (h : findStatusCapture info = some "invalid") :
    waitForNotarization cfg uuid user pass lf (some info :: rest) =
      (writeCommandOutputOnDir "" (notarizationInfoArgs cfg uuid user pass) ++
        invalidLogEffects lf info, .err .notarizationFailed) := by
  simp [waitForNotarization, h]

theorem waitFor_step_unknown (cfg : Cfg) (uuid user pass : String)
    (lf : String → Option String) (info : String) (rest : List (Option String))
    (st : String) (h : findStatusCapture info = some st) (h1 : st ≠ "success")
    (h2 : st ≠ "in progress") (h3 : st ≠ "invalid") :
    waitForNotarization cfg uuid user pass lf (some info :: rest) =
      (writeCommandOutputOnDir "" (notarizationInfoArgs cfg uuid user pass),
       .err (.unknownStatus st)) := by
  have b1 : (st == "success") = false := beq_eq_false_iff_ne.mpr h1
  have b2 : (st == "in progress") = false := beq_eq_false_iff_ne.mpr h2
  have b3 : (st == "invalid") = false := beq_eq_false_iff_ne.mpr h3
  simp [waitForNotarization, h, b1, b2, b3]

theorem waitFor_step_noformat (cfg : Cfg) (uuid user pass : String)
    (lf : String → Option String) (info : String) (rest : List (Option String))
    (h : findStatusCapture info = none) :
    waitForNotarization cfg uuid user pass lf (some info :: rest) =
      (writeCommandOutputOnDir "" (notarizationInfoArgs cfg uuid user pass),
       .err .unexpectedFormat) := by
  simp [waitForNotarization, h]

/-- C1: the poller's dispatch on the captured `Status:` value — `success`
returns success immediately; `in progress` sleeps the fixed 10-second
interval and queries again, with no bound on the number of retries; any
other captured word-sequence fails immediately with the unknown-status
error; a response with no `Status:` match fails immediately with the
unexpected-output-format error.  Immediate outcomes are pinned down by the
full trace: exactly one query, no sleep. -/
theorem C1_poller_status_dispatch (cfg : Cfg) (uuid user pass : String)
    (lf : String → Option String) (info : String) (rest : List (Option String)) :
    (findStatusCapture info = some "success" →
       waitForNotarization cfg uuid user pass lf (some info :: rest) =
         (writeCommandOutputOnDir "" (notarizationInfoArgs cfg uuid user pass) ++
           [Effect.printOut "notarization completed\n"], .ok ())) ∧
    (findStatusCapture info = some "in progress" →
       (waitForNotarization cfg uuid user pass lf (some info :: rest)).2 =
         (waitForNotarization cfg uuid user pass lf rest).2 ∧
       Effect.sleepSeconds 10 ∈ (waitForNotarization cfg uuid user pass lf (some info :: rest)).1 ∧
       countExecs (waitForNotarization cfg uuid user pass lf (some info :: rest)).1 =
         countExecs (waitForNotarization cfg uuid user pass lf rest).1 + 1 ∧
       (∀ n, (waitForNotarization cfg uuid user pass lf
            (List.replicate n (some info) ++ rest)).2 =
          (waitForNotarization cfg uuid user pass lf rest).2)) ∧
    (∀ st, findStatusCapture info = some st → st ≠ "success" → st ≠ "in progress" →
       st ≠ "invalid" →
       waitForNotarization cfg uuid user pass lf (some info :: rest) =
         (writeCommandOutputOnDir "" (notarizationInfoArgs cfg uuid user pass),
          .err (.unknownStatus st))) ∧
    (findStatusCapture info = none →
       waitForNotarization cfg uuid user pass lf (some info :: rest) =
         (writeCommandOutputOnDir "" (notarizationInfoArgs cfg uuid user pass),
          .err .unexpectedFormat)) := by
  refine ⟨waitFor_step_success cfg uuid user pass lf info rest, ?_,
    fun st h h1 h2 h3 => waitFor_step_unknown cfg uuid user pass lf info rest st h h1 h2 h3,
    waitFor_step_noformat cfg uuid user pass lf info rest⟩
  intro h
  have hstep := waitFor_step_inprogress cfg uuid user pass lf info rest h
  refine ⟨by rw [hstep], ?_, ?_, ?_⟩
  · rw [hstep]
    simp
  · rw [hstep]
    simp only [countExecs_append, countExecs_writeCommandOutputOnDir]
    have h0 : countExecs [Effect.printOut "notarization in progress, will check again in 10s...\n",
        Effect.sleepSeconds 10] = 0 := rfl
    rw [h0]
    omega
  · intro n
    induction n with
    | zero => simp
    | succ m ih =>
      rw [List.replicate_succ, List.cons_append,
        waitFor_step_inprogress cfg uuid user pass lf info
          (List.replicate m (some info) ++ rest) h]
      exact ih

/-- Witness for C1 at concrete poller responses: terminal success, three
`in progress` rounds before a success, an unknown status, and a malformed
response. -/
theorem C1_poller_status_dispatch_witness :
    (waitForNotarization ⟨0, false⟩ "t" "u" "p" (fun _ => none) [some "Status: success"]).2 =
      .ok () ∧
    (waitForNotarization ⟨0, false⟩ "t" "u" "p" (fun _ => none)
       (List.replicate 3 (some "Status: in progress") ++ [some "Status: success"])).2 =
      (waitForNotarization ⟨0, false⟩ "t" "u" "p" (fun _ => none) [some "Status: success"]).2 ∧
    (waitForNotarization ⟨0, false⟩ "t" "u" "p" (fun _ => none) [some "Status: bogus"]).2 =
      .err (.unknownStatus "bogus") ∧
    (waitForNotarization ⟨0, false⟩ "t" "u" "p" (fun _ => none) [some "no status field"]).2 =
      .err .unexpectedFormat := by
  refine ⟨?_, ?_, ?_, ?_⟩
  · rw [(C1_poller_status_dispatch ⟨0, false⟩ "t" "u" "p" (fun _ => none)
      "Status: success" []).1 (by decide)]
  · exact ((C1_poller_status_dispatch ⟨0, false⟩ "t" "u" "p" (fun _ => none)
      "Status: in progress" [some "Status: success"]).2.1 (by decide)).2.2.2 3
  · rw [(C1_poller_status_dispatch ⟨0, false⟩ "t" "u" "p" (fun _ => none)
      "Status: bogus" []).2.2.1 "bogus" (by decide) (by decide) (by decide) (by decide)]
  · rw [(C1_poller_status_dispatch ⟨0, false⟩ "t" "u" "p" (fun _ => none)
      "no status field" []).2.2.2 (by decide)]

/-- C7: on a captured status of `invalid`, the poller tries to locate a
`LogFileURL:` field, fetches it when present and streams the body to
diagnostic output, and fails with the app-notarization-failed error in every
case — URL absent, fetch failed, or fetch succeeded; the outcome never
depends on the log fetch. -/
theorem C7_invalid_fails_regardless_of_log (cfg : Cfg) (uuid user pass : String)
    (info : String) (rest : List (Option String))
    (hinv : findStatusCapture info = some "invalid") :
    (∀ lf, (waitForNotarization cfg uuid user pass lf (some info :: rest)).2 =
       .err .notarizationFailed) ∧
    (∀ lf url, findLogFileURLCapture info = some url →
       Effect.httpGet url ∈ (waitForNotarization cfg uuid user pass lf (some info :: rest)).1) ∧
    (∀ lf url body, findLogFileURLCapture info = some url → lf url = some body →
       Effect.printErr body ∈ (waitForNotarization cfg uuid user pass lf (some info :: rest)).1) ∧
    (findLogFileURLCapture info = none → ∀ lf u,
       Effect.httpGet u ∉ (waitForNotarization cfg uuid user pass lf (some info :: rest)).1) ∧
    (∀ lf lf2, (waitForNotarization cfg uuid user pass lf (some info :: rest)).2 =
       (waitForNotarization cfg uuid user pass lf2 (some info :: rest)).2) := by
  refine ⟨?_, ?_, ?_, ?_, ?_⟩
  · intro lf
    rw [waitFor_step_invalid cfg uuid user pass lf info rest hinv]
  · intro lf url hurl
    rw [waitFor_step_invalid cfg uuid user pass lf info rest hinv]
    simp [invalidLogEffects, hurl]
  · intro lf url body hurl hb
    rw [waitFor_step_invalid cfg uuid user pass lf info rest hinv]
    simp [invalidLogEffects, hurl, hb]
  · intro hnone lf u
    rw [waitFor_step_invalid cfg uuid user pass lf info rest hinv]
    intro hmem
    simp only [List.mem_append] at hmem
    rcases hmem with hmem | hmem
    · rcases mem_writeCommandOutputOnDir hmem with ⟨s, hs⟩ | hs <;> simp at hs
    · simp [invalidLogEffects, hnone] at hmem
  · intro lf lf2
    rw [waitFor_step_invalid cfg uuid user pass lf info rest hinv,
      waitFor_step_invalid cfg uuid user pass lf2 info rest hinv]

/-- Witness for C7 at concrete responses: an `invalid` status with a log URL
(fetch succeeding) and an `invalid` status without any log URL. -/
theorem C7_invalid_fails_regardless_of_log_witness :
    (waitForNotarization ⟨0, false⟩ "t" "u" "p" (fun _ => some "LOGBODY")
       [some "Status: invalid\nLogFileURL: http://ex/log"]).2 = .err .notarizationFailed ∧
    Effect.httpGet "http://ex/log" ∈
      (waitForNotarization ⟨0, false⟩ "t" "u" "p" (fun _ => some "LOGBODY")
        [some "Status: invalid\nLogFileURL: http://ex/log"]).1 ∧
    (waitForNotarization ⟨0, false⟩ "t" "u" "p" (fun _ => none)
       [some "Status: invalid"]).2 = .err .notarizationFailed := by
  refine ⟨?_, ?_, ?_⟩
  · exact (C7_invalid_fails_regardless_of_log ⟨0, false⟩ "t" "u" "p"
      "Status: invalid\nLogFileURL: http://ex/log" [] (by decide)).1 (fun _ => some "LOGBODY")
  · exact (C7_invalid_fails_regardless_of_log ⟨0, false⟩ "t" "u" "p"
      "Status: invalid\nLogFileURL: http://ex/log" [] (by decide)).2.1
      (fun _ => some "LOGBODY") "http://ex/log" (by decide)
  · exact (C7_invalid_fails_regardless_of_log ⟨0, false⟩ "t" "u" "p"
      "Status: invalid" [] (by decide)).1 (fun _ => none)

theorem isSubmitStep_of_mem_wcood {e : Effect} {d : String} {args : List String}
    (h : e ∈ writeCommandOutputOnDir d args)
    (hargs : (args.take 3 == ["xcrun", "altool", "--notarize-app"]) = false) :
    Effect.isSubmitStep e = false := by
  rcases mem_writeCommandOutputOnDir h with ⟨s, rfl⟩ | rfl
  · rfl
  · simpa [Effect.isSubmitStep] using hargs

theorem isSubmitStep_of_mem_invalidLog {lf : String → Option String} {info : String}
    {e : Effect} (h : e ∈ invalidLogEffects lf info) : Effect.isSubmitStep e = false := by
  unfold invalidLogEffects at h
  cases hu : findLogFileURLCapture info with
  | some url =>
    rw [hu] at h
    dsimp only at h
    cases hl : lf url with
    | none => rw [hl] at h; simp at h; rcases h with rfl | rfl <;> rfl
    | some body => rw [hl] at h; simp at h; rcases h with rfl | rfl | rfl <;> rfl
  | none =>
    rw [hu] at h
    dsimp only at h
    simp at h
    subst h
    rfl

theorem waitForNotarization_not_submit (cfg : Cfg) (uuid user pass : String)
    (lf : String → Option String) :
    ∀ (rs : List (Option String)) e, e ∈ (waitForNotarization cfg uuid user pass lf rs).1 →
      Effect.isSubmitStep e = false := by
  intro rs
  induction rs with
  | nil => intro e he; simp [waitForNotarization] at he
  | cons r rest ih =>
    intro e he
    cases r with
    | none =>
      simp only [waitForNotarization] at he
      exact isSubmitStep_of_mem_wcood he rfl
    | some info =>
      cases hc : findStatusCapture info with
      | none =>
        rw [waitFor_step_noformat cfg uuid user pass lf info rest hc] at he
        exact isSubmitStep_of_mem_wcood he rfl
      | some st =>
        by_cases h1 : st = "success"
        · subst h1
          rw [waitFor_step_success cfg uuid user pass lf info rest hc] at he
          rcases List.mem_append.mp he with he | he
          · exact isSubmitStep_of_mem_wcood he rfl
          · simp at he; subst he; rfl
        by_cases h2 : st = "in progress"
        · subst h2
          rw [waitFor_step_inprogress cfg uuid user pass lf info rest hc] at he
          rcases List.mem_append.mp he with he | he
          · rcases List.mem_append.mp he with he | he
            · exact isSubmitStep_of_mem_wcood he rfl
            · simp at he; rcases he with rfl | rfl <;> rfl
          · exact ih e he
        by_cases h3 : st = "invalid"
        · subst h3
          rw [waitFor_step_invalid cfg uuid user pass lf info rest hc] at he
          rcases List.mem_append.mp he with he | he
          · exact isSubmitStep_of_mem_wcood he rfl
          · exact isSubmitStep_of_mem_invalidLog he
        · rw [waitFor_step_unknown cfg uuid user pass lf info rest st hc h1 h2 h3] at he
          exact isSubmitStep_of_mem_wcood he rfl

theorem verifySignature_fst_mem {cfg : Cfg} {ok : Bool} {p : String} {e : Effect}
    (h : e ∈ (verifySignature cfg ok p).1) :
    (∃ s, e = Effect.printOut s) ∨ e = Effect.execCmd "" (verifySignatureArgs cfg p) := by
  unfold verifySignature at h
  split at h
  · simp at h; exact Or.inl ⟨_, h⟩
  · simp at h; exact Or.inr h

theorem makeAppZip_fst (ok : Bool) (a : String) :
    (makeAppZip ok a).1 =
      Effect.printOut ("compressing " ++ pathJoin (dirName a) (baseName a) ++ " to " ++
          pathJoin (dirName a) (dropRightStr (baseName a) (goExt (baseName a)).length ++ ".zip") ++ "\n") ::
        writeCommandOutputOnDir (dirName a)
          ["zip", "-9", "-y", "-r", dropRightStr (baseName a) (goExt (baseName a)).length ++ ".zip",
           baseName a] := by
  unfold makeAppZip
  split <;> rfl

theorem isSubmitStep_of_mem_verify {cfg : Cfg} {ok : Bool} {p : String} {e : Effect}
    (h : e ∈ (verifySignature cfg ok p).1) : Effect.isSubmitStep e = false := by
  rcases verifySignature_fst_mem h with ⟨s, rfl⟩ | rfl
  · rfl
  · rfl

theorem isSubmitStep_of_mem_makeAppZip {ok : Bool} {a : String} {e : Effect}
    (h : e ∈ (makeAppZip ok a).1) : Effect.isSubmitStep e = false := by
  rw [makeAppZip_fst] at h
  rcases List.mem_cons.mp h with rfl | h
  · rfl
  · exact isSubmitStep_of_mem_wcood h rfl

theorem isSubmitStep_of_mem_stapleTr {b : Bool} {p : String} {e : Effect}
    (h : e ∈ (if b then writeCommandOutputOnDir "" ["xcrun", "stapler", "staple", p] else [])) :
    Effect.isSubmitStep e = false := by
  cases b with
  | true => exact isSubmitStep_of_mem_wcood h rfl
  | false => simp at h

theorem unzipPayload_fst (w : StapleWorld) (payload outputDir : String) :
    (unzipPayload w payload outputDir).1 =
      writeCommandOutputOnDir outputDir ["unzip", payload] := rfl

theorem stapleBody_not_submit (cfg : Cfg) (w : StapleWorld) (zipFile dir : String) :
    ∀ e ∈ (stapleBody cfg w zipFile dir).1, Effect.isSubmitStep e = false := by
  intro e he
  simp only [stapleBody] at he
  cases hu : (unzipPayload w zipFile dir).2 with
  | err e2 =>
    rw [hu] at he
    dsimp only at he
    rw [unzipPayload_fst] at he
    exact isSubmitStep_of_mem_wcood he rfl
  | ok pc =>
    rw [hu] at he
    dsimp only at he
    rw [unzipPayload_fst] at he
    by_cases hcs : (pc.2 && !w.stapleOk) = true
    · rw [if_pos hcs] at he
      rcases List.mem_append.mp he with he | he
      · exact isSubmitStep_of_mem_wcood he rfl
      · exact isSubmitStep_of_mem_stapleTr he
    · rw [if_neg hcs] at he
      cases hv : (verifySignature cfg w.verifyOk pc.1).2 with
      | err e3 =>
        rw [hv] at he
        rcases List.mem_append.mp he with he | he
        · rcases List.mem_append.mp he with he | he
          · exact isSubmitStep_of_mem_wcood he rfl
          · exact isSubmitStep_of_mem_stapleTr he
        · exact isSubmitStep_of_mem_verify he
      | ok _ =>
        rw [hv] at he
        cases hc2 : pc.2 with
        | false =>
          rw [hc2] at he
          simp only [Bool.false_eq_true, if_false] at he
          rcases List.mem_append.mp he with he | he
          · rcases List.mem_append.mp he with he | he
            · exact isSubmitStep_of_mem_wcood he rfl
            · simp at he
          · exact isSubmitStep_of_mem_verify he
        | true =>
          rw [hc2] at he
          simp only [if_true] at he
          cases hz : (makeAppZip w.zipOk pc.1).2 with
          | err e4 =>
            rw [hz] at he
            rcases List.mem_append.mp he with he | he
            · rcases List.mem_append.mp he with he | he
              · rcases List.mem_append.mp he with he | he
                · exact isSubmitStep_of_mem_wcood he rfl
                · exact isSubmitStep_of_mem_wcood he rfl
              · exact isSubmitStep_of_mem_verify he
            · exact isSubmitStep_of_mem_makeAppZip he
          | ok newZip =>
            rw [hz] at he
            rcases List.mem_append.mp he with he | he
            · rcases List.mem_append.mp he with he | he
              · rcases List.mem_append.mp he with he | he
                · rcases List.mem_append.mp he with he | he
                  · exact isSubmitStep_of_mem_wcood he rfl
                  · exact isSubmitStep_of_mem_wcood he rfl
                · exact isSubmitStep_of_mem_verify he
              · exact isSubmitStep_of_mem_makeAppZip he
            · simp at he; subst he; rfl

theorem stapleAndVerify_not_submit (cfg : Cfg) (w : StapleWorld) (zipFile : String) :
    ∀ e ∈ (stapleAndVerify cfg w zipFile).1, Effect.isSubmitStep e = false := by
  intro e he
  simp only [stapleAndVerify] at he
  cases ht : w.tmpDir with
  | none => rw [ht] at he; simp at he
  | some dir =>
    rw [ht] at he
    dsimp only at he
    rcases List.mem_cons.mp he with rfl | he
    · rfl
    · rcases List.mem_append.mp he with he | he
      · exact stapleBody_not_submit cfg w zipFile dir e he
      · simp at he; subst he; rfl

theorem pollAndStaple_not_submit (cfg : Cfg) (w : World) (req : NotarizationRequest)
    (uuid : String) :
    ∀ e ∈ (pollAndStaple cfg w req uuid).1, Effect.isSubmitStep e = false := by
  intro e he
  simp only [pollAndStaple] at he
  cases hw : (waitForNotarization cfg uuid req.username req.password w.logFetch
      w.pollResponses).2 with
  | err e2 =>
    rw [hw] at he
    dsimp only at he
    rcases List.mem_append.mp he with he | he
    · simp at he; subst he; rfl
    · exact waitForNotarization_not_submit cfg uuid req.username req.password w.logFetch
        w.pollResponses e he
  | ok _ =>
    rw [hw] at he
    dsimp only at he
    rcases List.mem_append.mp he with he | he
    · rcases List.mem_append.mp he with he | he
      · simp at he; subst he; rfl
      · exact waitForNotarization_not_submit cfg uuid req.username req.password w.logFetch
          w.pollResponses e he
    · exact stapleAndVerify_not_submit cfg w.staple req.appPath e he

/-- C8: when the caller supplied a non-empty ticket identifier, the pipeline
never performs the submission step — no `--notarize-app` command and no
archive open for bundle-identifier extraction appear in the trace — and it
proceeds directly to polling with the supplied ticket; with an empty ticket
identifier, submission runs first and its result becomes the polling key. -/
theorem C8_resume_skips_submission (cfg : Cfg) (w : World) (req : NotarizationRequest) :
    (req.uuid ≠ "" →
       notarizePayload cfg w req = pollAndStaple cfg w req req.uuid ∧
       ∀ e ∈ (notarizePayload cfg w req).1, Effect.isSubmitStep e = false) ∧
    (req.uuid = "" → ∀ t trSub,
       submitForNotarization cfg req.appPath w.zipOpen req.username req.password
           w.submitProc w.submitOutput = (trSub, .ok t) →
       notarizePayload cfg w req =
         (trSub ++ (pollAndStaple cfg w req t).1, (pollAndStaple cfg w req t).2)) := by
  constructor
  · intro hne
    have hb : (req.uuid == "") = false := beq_eq_false_iff_ne.mpr hne
    have heq : notarizePayload cfg w req = pollAndStaple cfg w req req.uuid := by
      simp [notarizePayload, hb]
    refine ⟨heq, ?_⟩
    rw [heq]
    exact pollAndStaple_not_submit cfg w req req.uuid
  · intro hz t trSub hsub
    have hb : (req.uuid == "") = true := by rw [hz]; rfl
    have h1 := congrArg Prod.fst hsub
    have h2 := congrArg Prod.snd hsub
    simp only [notarizePayload, hb, if_true]
    rw [h2]
    dsimp only
    rw [h1]

/-- Witness for C8: a request resuming with ticket `abc-123` equals the
poll-and-staple pipeline on that ticket and carries no submission effect in
its trace; an empty-ticket request runs submission first and polls on the
ticket parsed from the submission output. -/
theorem C8_resume_skips_submission_witness :
    (notarizePayload ⟨0, false⟩
       ⟨some [⟨"A.app/Contents/Info.plist", 420, some ⟨[("CFBundleIdentifier", PValue.str "com.a")]⟩⟩],
        .ok, "RequestUUID = abc-123", [some "Status: success"], fun _ => none,
        ⟨some "/tmp/nz", true, [⟨"A.app", true, 493⟩], true, true, true, true⟩, none, true⟩
       ⟨"A.zip", "u", "pw", "abc-123"⟩ =
     pollAndStaple ⟨0, false⟩
       ⟨some [⟨"A.app/Contents/Info.plist", 420, some ⟨[("CFBundleIdentifier", PValue.str "com.a")]⟩⟩],
        .ok, "RequestUUID = abc-123", [some "Status: success"], fun _ => none,
        ⟨some "/tmp/nz", true, [⟨"A.app", true, 493⟩], true, true, true, true⟩, none, true⟩
       ⟨"A.zip", "u", "pw", "abc-123"⟩ "abc-123") ∧
    (notarizePayload ⟨0, false⟩
       ⟨some [⟨"A.app/Contents/Info.plist", 420, some ⟨[("CFBundleIdentifier", PValue.str "com.a")]⟩⟩],
        .ok, "RequestUUID = abc-123", [some "Status: success"], fun _ => none,
        ⟨some "/tmp/nz", true, [⟨"A.app", true, 493⟩], true, true, true, true⟩, none, true⟩
       ⟨"A.zip", "u", "pw", ""⟩ =
     ((submitForNotarization ⟨0, false⟩ "A.zip"
         (some [⟨"A.app/Contents/Info.plist", 420, some ⟨[("CFBundleIdentifier", PValue.str "com.a")]⟩⟩])
         "u" "pw" .ok "RequestUUID = abc-123").1 ++
       (pollAndStaple ⟨0, false⟩
         ⟨some [⟨"A.app/Contents/Info.plist", 420, some ⟨[("CFBundleIdentifier", PValue.str "com.a")]⟩⟩],
          .ok, "RequestUUID = abc-123", [some "Status: success"], fun _ => none,
          ⟨some "/tmp/nz", true, [⟨"A.app", true, 493⟩], true, true, true, true⟩, none, true⟩
         ⟨"A.zip", "u", "pw", ""⟩ "abc-123").1,
      (pollAndStaple ⟨0, false⟩
         ⟨some [⟨"A.app/Contents/Info.plist", 420, some ⟨[("CFBundleIdentifier", PValue.str "com.a")]⟩⟩],
          .ok, "RequestUUID = abc-123", [some "Status: success"], fun _ => none,
          ⟨some "/tmp/nz", true, [⟨"A.app", true, 493⟩], true, true, true, true⟩, none, true⟩
         ⟨"A.zip", "u", "pw", ""⟩ "abc-123").2)) := by
  constructor
  · exact ((C8_resume_skips_submission ⟨0, false⟩
      ⟨some [⟨"A.app/Contents/Info.plist", 420, some ⟨[("CFBundleIdentifier", PValue.str "com.a")]⟩⟩],
       .ok, "RequestUUID = abc-123", [some "Status: success"], fun _ => none,
       ⟨some "/tmp/nz", true, [⟨"A.app", true, 493⟩], true, true, true, true⟩, none, true⟩
      ⟨"A.zip", "u", "pw", "abc-123"⟩).1 (by decide)).1
  · exact (C8_resume_skips_submission ⟨0, false⟩
      ⟨some [⟨"A.app/Contents/Info.plist", 420, some ⟨[("CFBundleIdentifier", PValue.str "com.a")]⟩⟩],
       .ok, "RequestUUID = abc-123", [some "Status: success"], fun _ => none,
       ⟨some "/tmp/nz", true, [⟨"A.app", true, 493⟩], true, true, true, true⟩, none, true⟩
      ⟨"A.zip", "u", "pw", ""⟩).2 rfl "abc-123"
      (submitForNotarization ⟨0, false⟩ "A.zip"
        (some [⟨"A.app/Contents/Info.plist", 420, some ⟨[("CFBundleIdentifier", PValue.str "com.a")]⟩⟩])
        "u" "pw" .ok "RequestUUID = abc-123").1
      (by decide)

/-- C9: dispatch on the input artifact extension — `.zip` proceeds directly,
`.app` or no extension is first compressed into a zip that becomes the
pipeline artifact, and any other extension is rejected immediately with the
unsupported-format error, with an empty trace (no submission, polling or
stapling). -/
theorem C9_extension_dispatch (cfg : Cfg) (w : World) (req : NotarizationRequest)
    (hu : req.username ≠ "") (hp : req.password ≠ "") :
    (goExt req.appPath = ".zip" → notarizeFile cfg w req = notarizePayload cfg w req) ∧
    ((goExt req.appPath = ".app" ∨ goExt req.appPath = "") →
       notarizeFile cfg w req =
         (match (makeAppZip w.makeZipOk req.appPath).2 with
          | .err e => ((makeAppZip w.makeZipOk req.appPath).1, NRes.err e)
          | .ok appZip =>
            ((makeAppZip w.makeZipOk req.appPath).1 ++
               (notarizePayload cfg w { req with appPath := appZip }).1,
             (notarizePayload cfg w { req with appPath := appZip }).2))) ∧
    (goExt req.appPath ≠ ".zip" → goExt req.appPath ≠ ".app" → goExt req.appPath ≠ "" →
       notarizeFile cfg w req = ([], .err (.unsupportedFormat (goExt req.appPath)))) := by
  have bu : (req.username == "") = false := beq_eq_false_iff_ne.mpr hu
  have bp : (req.password == "") = false := beq_eq_false_iff_ne.mpr hp
  refine ⟨?_, ?_, ?_⟩
  · intro hz
    have bz : (goExt req.appPath == ".zip") = true := by rw [hz]; rfl
    simp [notarizeFile, bu, bp, bz]
  · intro hz
    rcases hz with hz | hz
    · have bz1 : (goExt req.appPath == ".zip") = false := by rw [hz]; rfl
      have bz2 : (goExt req.appPath == ".app") = true := by rw [hz]; rfl
      simp only [notarizeFile, bu, Bool.false_eq_true, if_false, bp, bz1, bz2, Bool.true_or,
        if_true]
    · have bz1 : (goExt req.appPath == ".zip") = false := by rw [hz]; rfl
      have bz3 : (goExt req.appPath == "") = true := by rw [hz]; rfl
      simp only [notarizeFile, bu, Bool.false_eq_true, if_false, bp, bz1, bz3, Bool.or_true,
        if_true]
  · intro h1 h2 h3
    have b1 : (goExt req.appPath == ".zip") = false := beq_eq_false_iff_ne.mpr h1
    have b2 : (goExt req.appPath == ".app") = false := beq_eq_false_iff_ne.mpr h2
    have b3 : (goExt req.appPath == "") = false := beq_eq_false_iff_ne.mpr h3
    simp [notarizeFile, bu, bp, b1, b2, b3]

/-- Witness for C9 at concrete artifact paths: a `.zip` input, an `.app`
input compressed first, an extension-free input compressed first, and a
`.dmg` input rejected with an empty trace. -/
theorem C9_extension_dispatch_witness :
    (notarizeFile ⟨0, false⟩
       ⟨some [⟨"tool", 0, none⟩], .ok, "RequestUUID = aa", [some "Status: success"], fun _ => none,
        ⟨some "/tmp/nz", true, [⟨"A.app", true, 493⟩], true, true, true, true⟩, none, true⟩
       ⟨"A.zip", "u", "pw", "aa"⟩ =
     notarizePayload ⟨0, false⟩
       ⟨some [⟨"tool", 0, none⟩], .ok, "RequestUUID = aa", [some "Status: success"], fun _ => none,
        ⟨some "/tmp/nz", true, [⟨"A.app", true, 493⟩], true, true, true, true⟩, none, true⟩
       ⟨"A.zip", "u", "pw", "aa"⟩) ∧
    (notarizeFile ⟨0, false⟩
       ⟨some [⟨"tool", 0, none⟩], .ok, "RequestUUID = aa", [some "Status: success"], fun _ => none,
        ⟨some "/tmp/nz", true, [⟨"A.app", true, 493⟩], true, true, true, true⟩, none, false⟩
       ⟨"MyApp.app", "u", "pw", "aa"⟩ =
     ((makeAppZip false "MyApp.app").1, .err .zipCmdFailed)) ∧
    (notarizeFile ⟨0, false⟩
       ⟨some [⟨"tool", 0, none⟩], .ok, "RequestUUID = aa", [some "Status: success"], fun _ => none,
        ⟨some "/tmp/nz", true, [⟨"A.app", true, 493⟩], true, true, true, true⟩, none, true⟩
       ⟨"A.dmg", "u", "pw", "aa"⟩ =
     ([], .err (.unsupportedFormat ".dmg"))) := by
  refine ⟨?_, ?_, ?_⟩
  · exact (C9_extension_dispatch ⟨0, false⟩
      ⟨some [⟨"tool", 0, none⟩], .ok, "RequestUUID = aa", [some "Status: success"], fun _ => none,
       ⟨some "/tmp/nz", true, [⟨"A.app", true, 493⟩], true, true, true, true⟩, none, true⟩
      ⟨"A.zip", "u", "pw", "aa"⟩ (by decide) (by decide)).1 (by decide)
  · rw [(C9_extension_dispatch ⟨0, false⟩
      ⟨some [⟨"tool", 0, none⟩], .ok, "RequestUUID = aa", [some "Status: success"], fun _ => none,
       ⟨some "/tmp/nz", true, [⟨"A.app", true, 493⟩], true, true, true, true⟩, none, false⟩
      ⟨"MyApp.app", "u", "pw", "aa"⟩ (by decide) (by decide)).2.1 (Or.inl (by decide))]
    rfl
  · exact (C9_extension_dispatch ⟨0, false⟩
      ⟨some [⟨"tool", 0, none⟩], .ok, "RequestUUID = aa", [some "Status: success"], fun _ => none,
       ⟨some "/tmp/nz", true, [⟨"A.app", true, 493⟩], true, true, true, true⟩, none, true⟩
      ⟨"A.dmg", "u", "pw", "aa"⟩ (by decide) (by decide)).2.2 (by decide) (by decide) (by decide)

theorem hasRename_append (a b : List Effect) :
    hasRename (a ++ b) = (hasRename a || hasRename b) := by
  simp [hasRename, List.any_append]

theorem hasRename_wcood (d : String) (args : List String) :
    hasRename (writeCommandOutputOnDir d args) = false := by
  unfold writeCommandOutputOnDir
  split <;> rfl

theorem hasRename_verify (cfg : Cfg) (ok : Bool) (p : String) :
    hasRename (verifySignature cfg ok p).1 = false := by
  unfold verifySignature
  split <;> rfl

theorem hasRename_makeAppZip (ok : Bool) (a : String) :
    hasRename (makeAppZip ok a).1 = false := by
  rw [makeAppZip_fst]
  unfold writeCommandOutputOnDir
  split <;> rfl

theorem hasRename_stapleTr (b : Bool) (p : String) :
    hasRename (if b then writeCommandOutputOnDir "" ["xcrun", "stapler", "staple", p] else []) =
      false := by
  cases b with
  | true => exact hasRename_wcood "" ["xcrun", "stapler", "staple", p]
  | false => rfl

theorem not_mem_rename_of_hasRename_false {tr : List Effect} (h : hasRename tr = false)
    (a b : String) : Effect.rename a b ∉ tr := by
  intro hmem
  unfold hasRename at h
  rw [List.any_eq_false] at h
  exact absurd rfl (h (Effect.rename a b) hmem)

theorem verifySignature_ok_cases {cfg : Cfg} {ok : Bool} {p : String}
    (h : (verifySignature cfg ok p).2 = .ok ()) : cfg.dryRun = true ∨ ok = true := by
  unfold verifySignature at h
  split at h
  · left; assumption
  · cases ok with
    | true => right; rfl
    | false => simp at h

theorem stapleBody_rename (cfg : Cfg) (w : StapleWorld) (zipFile dir : String) :
    (((stapleBody cfg w zipFile dir).2 = .err .unzipFailed ∨
      (stapleBody cfg w zipFile dir).2 = .err .noAppDir ∨
      (stapleBody cfg w zipFile dir).2 = .err .stapleFailed ∨
      (stapleBody cfg w zipFile dir).2 = .err .verifyFailed ∨
      (stapleBody cfg w zipFile dir).2 = .err .tmpDirFailed) →
      hasRename (stapleBody cfg w zipFile dir).1 = false) ∧
    (∀ a b, Effect.rename a b ∈ (stapleBody cfg w zipFile dir).1 →
      w.stapleOk = true ∧ (cfg.dryRun = true ∨ w.verifyOk = true)) := by
  simp only [stapleBody]
  cases hu : (unzipPayload w zipFile dir).2 with
  | err e2 =>
    dsimp only
    rw [unzipPayload_fst]
    constructor
    · intro _
      exact hasRename_wcood dir ["unzip", zipFile]
    · intro a b hmem
      exact absurd hmem (not_mem_rename_of_hasRename_false (hasRename_wcood _ _) a b)
  | ok pc =>
    dsimp only
    rw [unzipPayload_fst]
    by_cases hcs : (pc.2 && !w.stapleOk) = true
    · rw [if_pos hcs]
      have hnr : hasRename (writeCommandOutputOnDir dir ["unzip", zipFile] ++
          if pc.2 = true then writeCommandOutputOnDir "" ["xcrun", "stapler", "staple", pc.1]
          else []) = false := by
        rw [hasRename_append, hasRename_wcood, hasRename_stapleTr]
        rfl
      constructor
      · intro _
        exact hnr
      · intro a b hmem
        exact absurd hmem (not_mem_rename_of_hasRename_false hnr a b)
    · rw [if_neg hcs]
      cases hv : (verifySignature cfg w.verifyOk pc.1).2 with
      | err e3 =>
        dsimp only
        have hnr : hasRename ((writeCommandOutputOnDir dir ["unzip", zipFile] ++
            (if pc.2 = true then writeCommandOutputOnDir "" ["xcrun", "stapler", "staple", pc.1]
             else [])) ++ (verifySignature cfg w.verifyOk pc.1).1) = false := by
          rw [hasRename_append, hasRename_append, hasRename_wcood, hasRename_stapleTr,
            hasRename_verify]
          rfl
        constructor
        · intro _
          exact hnr
        · intro a b hmem
          exact absurd hmem (not_mem_rename_of_hasRename_false hnr a b)
      | ok u =>
        cases u
        dsimp only
        cases hc2 : pc.2 with
        | false =>
          simp only [Bool.false_eq_true, if_false]
          have hnr : hasRename ((writeCommandOutputOnDir dir ["unzip", zipFile] ++ []) ++
              (verifySignature cfg w.verifyOk pc.1).1) = false := by
            rw [hasRename_append, hasRename_append, hasRename_wcood, hasRename_verify]
            rfl
          constructor
          · intro _
            exact hnr
          · intro a b hmem
            exact absurd hmem (not_mem_rename_of_hasRename_false hnr a b)
        | true =>
          simp only [if_true]
          have hstap : w.stapleOk = true := by
            cases hso : w.stapleOk with
            | true => rfl
            | false => exact absurd (by rw [hc2, hso]; rfl) hcs
          have hver : cfg.dryRun = true ∨ w.verifyOk = true := verifySignature_ok_cases hv
          cases hz : (makeAppZip w.zipOk pc.1).2 with
          | err e4 =>
            dsimp only
            have hnr : hasRename (((writeCommandOutputOnDir dir ["unzip", zipFile] ++
                writeCommandOutputOnDir "" ["xcrun", "stapler", "staple", pc.1]) ++
                (verifySignature cfg w.verifyOk pc.1).1) ++ (makeAppZip w.zipOk pc.1).1) =
                false := by
              rw [hasRename_append, hasRename_append, hasRename_append, hasRename_wcood,
                hasRename_wcood, hasRename_verify, hasRename_makeAppZip]
              rfl
            constructor
            · intro _
              exact hnr
            · intro a b hmem
              exact absurd hmem (not_mem_rename_of_hasRename_false hnr a b)
          | ok newZip =>
            dsimp only
            have hnr : hasRename (((writeCommandOutputOnDir dir ["unzip", zipFile] ++
                writeCommandOutputOnDir "" ["xcrun", "stapler", "staple", pc.1]) ++
                (verifySignature cfg w.verifyOk pc.1).1) ++ (makeAppZip w.zipOk pc.1).1) =
                false := by
              rw [hasRename_append, hasRename_append, hasRename_append, hasRename_wcood,
                hasRename_wcood, hasRename_verify, hasRename_makeAppZip]
              rfl
            constructor
            · intro h
              cases hr : w.renameOk with
              | true => rw [hr] at h; rcases h with h | h | h | h | h <;> simp at h
              | false => rw [hr] at h; rcases h with h | h | h | h | h <;> simp at h
            · intro a b hmem
              rcases List.mem_append.mp hmem with hmem | hmem
              · exact absurd hmem (not_mem_rename_of_hasRename_false hnr a b)
              · exact ⟨hstap, hver⟩

/-- C10: whenever the staple/verify step returns an extraction, staple,
verification (or temporary-directory) error, no rename over the original zip
path appears in the trace; a rename appears only after stapling succeeded
and signature verification succeeded; and the scoped temporary directory is
removed on every exit path on which it was created. -/
theorem C10_original_zip_preserved (cfg : Cfg) (w : StapleWorld) (zipFile : String) :
    (((stapleAndVerify cfg w zipFile).2 = .err .unzipFailed ∨
      (stapleAndVerify cfg w zipFile).2 = .err .noAppDir ∨
      (stapleAndVerify cfg w zipFile).2 = .err .stapleFailed ∨
      (stapleAndVerify cfg w zipFile).2 = .err .verifyFailed ∨
      (stapleAndVerify cfg w zipFile).2 = .err .tmpDirFailed) →
      hasRename (stapleAndVerify cfg w zipFile).1 = false) ∧
    (∀ a b, Effect.rename a b ∈ (stapleAndVerify cfg w zipFile).1 →
      w.stapleOk = true ∧ (cfg.dryRun = true ∨ w.verifyOk = true)) ∧
    (∀ d, w.tmpDir = some d → Effect.removeDir d ∈ (stapleAndVerify cfg w zipFile).1) := by
  simp only [stapleAndVerify]
  cases ht : w.tmpDir with
  | none =>
    dsimp only
    refine ⟨fun _ => rfl, ?_, ?_⟩
    · intro a b hmem
      simp at hmem
    · intro d hd
      simp at hd
  | some dir =>
    dsimp only
    have hb := stapleBody_rename cfg w zipFile dir
    refine ⟨?_, ?_, ?_⟩
    · intro h
      have h1 := hb.1 h
      have hsplit : hasRename (Effect.createTempDir :: (stapleBody cfg w zipFile dir).1 ++
          [Effect.removeDir dir]) = hasRename (stapleBody cfg w zipFile dir).1 := by
        simp [hasRename, List.any_append]
      rw [hsplit]
      exact h1
    · intro a b hmem
      rcases List.mem_cons.mp hmem with heq | hmem
      · exact absurd heq (by simp)
      · rcases List.mem_append.mp hmem with hmem | hmem
        · exact hb.2 a b hmem
        · simp at hmem
    · intro d hd
      injection hd with hdd
      subst hdd
      simp

/-- Witness for C10 at concrete staple worlds: a failed signature
verification leaves no rename in the trace; a fully successful run renames
(with stapling and verification both having succeeded); the temporary
directory is removed in both runs. -/
theorem C10_original_zip_preserved_witness :
    hasRename (stapleAndVerify ⟨0, false⟩
      ⟨some "/tmp/nz", true, [⟨"A.app", true, 493⟩], true, false, true, true⟩ "A.zip").1 =
      false ∧
    (true = true ∧ (false = true ∨ true = true)) ∧
    Effect.removeDir "/tmp/nz" ∈ (stapleAndVerify ⟨0, false⟩
      ⟨some "/tmp/nz", true, [⟨"A.app", true, 493⟩], true, false, true, true⟩ "A.zip").1 ∧
    Effect.removeDir "/tmp/nz" ∈ (stapleAndVerify ⟨0, false⟩
      ⟨some "/tmp/nz", true, [⟨"A.app", true, 493⟩], true, true, true, true⟩ "A.zip").1 := by
  refine ⟨?_, ?_, ?_, ?_⟩
  · exact (C10_original_zip_preserved ⟨0, false⟩
      ⟨some "/tmp/nz", true, [⟨"A.app", true, 493⟩], true, false, true, true⟩ "A.zip").1
      (Or.inr (Or.inr (Or.inr (Or.inl (by decide)))))
  · exact (C10_original_zip_preserved ⟨0, false⟩
      ⟨some "/tmp/nz", true, [⟨"A.app", true, 493⟩], true, true, true, true⟩ "A.zip").2.1
      "/tmp/nz/A.zip" "A.zip" (by decide)
  · exact (C10_original_zip_preserved ⟨0, false⟩
      ⟨some "/tmp/nz", true, [⟨"A.app", true, 493⟩], true, false, true, true⟩ "A.zip").2.2
      "/tmp/nz" rfl
  · exact (C10_original_zip_preserved ⟨0, false⟩
      ⟨some "/tmp/nz", true, [⟨"A.app", true, 493⟩], true, true, true, true⟩ "A.zip").2.2
      "/tmp/nz" rfl

end Macapptool
